import Mathlib

/-!
Shallow embedding of src/notebooks/conflict/boundaries_utils.py.

The two external collaborators are modelled as explicit environments:
the pycountry database (PycountryEnv) and the filesystem together with
the geopandas reader (FileSystem).  Exceptions raised by collaborator
calls are represented with Except / explicit outcome constructors, and
the Python try/except blocks become matches on those outcomes.  Log
output (the SimpleLogger sink and the one direct print) is returned
explicitly as a list of LogEvent; the quote characters of the Python
f-strings are omitted because they are irrelevant to the behaviour.
-/

/-- A record of the pycountry database: display name, alpha-2 and alpha-3 code. -/
structure Country where
  name : String
  alpha_2 : String
  alpha_3 : String
deriving DecidableEq, Repr

/-- Outcome of pycountry.countries.search_fuzzy: a (nonempty, in practice)
ranked list of matches, a raised LookupError, or some other raised
exception carrying a message. -/
inductive SearchOutcome where
  | found : List Country → SearchOutcome
  | lookupError : SearchOutcome
  | otherError : String → SearchOutcome
deriving DecidableEq, Repr

/-- The pycountry collaborator.  countries.get with alpha_2= / alpha_3= may
in principle raise (modelled as Except.error with the message); search_fuzzy
has its own outcome type. -/
structure PycountryEnv where
  getAlpha2 : String → Except String (Option Country)
  getAlpha3 : String → Except String (Option Country)
  search_fuzzy : String → SearchOutcome

/-- One emitted diagnostic: logger.info, logger.error (the shared sink), or a
direct print bypassing the sink. -/
inductive LogEvent where
  | info : String → LogEvent
  | error : String → LogEvent
  | print : String → LogEvent
deriving DecidableEq, Repr

/-- Whether an event went through the sink with error severity. -/
def LogEvent.isError : LogEvent → Bool
  | .error _ => true
  | _ => false

/-- Whether an event is a direct print (bypassing the sink). -/
def LogEvent.isPrint : LogEvent → Bool
  | .print _ => true
  | _ => false

/-- A Python value passed where a string is expected; str() coerces it. -/
inductive PyVal where
  | str : String → PyVal
  | int : Int → PyVal
  | none : PyVal
deriving DecidableEq, Repr

/-- The str() coercion on the modelled Python values. -/
def pyStr : PyVal → String
  | .str s => s
  | .int n => toString n
  | .none => "None"

/-- Python str.strip(): drop leading and trailing whitespace. -/
def pyStrip (s : String) : String :=
  ⟨(((s.data.dropWhile Char.isWhitespace).reverse).dropWhile
      Char.isWhitespace).reverse⟩

/-- Python str.upper() over the modelled inputs. -/
def pyUpper (s : String) : String :=
  ⟨s.data.map Char.toUpper⟩

/-- get_country_name_from_iso_code (boundaries_utils.py lines 18-53):
coerce with str(), strip, upper-case; then inside a try/except, look up by
alpha-2, fall back to alpha-3, return the name of the first hit or None;
any exception is caught and reported with a direct print, returning None. -/
def get_country_name_from_iso_code (env : PycountryEnv) (iso_code : PyVal) :
    Option String × List LogEvent :=
  let code := pyUpper (pyStrip (pyStr iso_code))
  match env.getAlpha2 code with
  | .error e =>
      (none, [LogEvent.print ("An error occurred while looking up ISO code "
        ++ code ++ ": " ++ e)])
  | .ok (some country) => (some country.name, [])
  | .ok Option.none =>
    match env.getAlpha3 code with
    | .error e =>
        (none, [LogEvent.print ("An error occurred while looking up ISO code "
          ++ code ++ ": " ++ e)])
    | .ok (some country) => (some country.name, [])
    | .ok Option.none => (none, [])

/-- get_iso_code_from_country_name (boundaries_utils.py lines 55-74):
search_fuzzy inside a try; first match yields its alpha_3; an empty result
or a caught LookupError yields None silently; any other caught exception
yields None after logger.error through the sink. -/
def get_iso_code_from_country_name (env : PycountryEnv) (country_name : String) :
    Option String × List LogEvent :=
  match env.search_fuzzy country_name with
  | .found (c :: _) => (some c.alpha_3, [])
  | .found [] => (none, [])
  | .lookupError => (none, [])
  | .otherError e =>
      (none, [LogEvent.error ("An error occurred while looking up ISO code for "
        ++ country_name ++ ": " ++ e)])

/-- The filesystem together with the geopandas reader, over an abstract
GeoDataFrame type A: Path.exists, gpd.read_file (Except.error = the raised
exception message), and len() on a loaded frame (used only in log text). -/
structure FileSystem (A : Type) where
  pathExists : String → Bool
  read_file : String → Except String A
  len : A → Nat

/-- One filesystem access performed by the loader.  The write constructor is
never emitted by the embedded code; it exists so that its absence from a
trace is a meaningful statement. -/
inductive FsAccess where
  | existsCheck : String → FsAccess
  | read : String → FsAccess
  | write : String → FsAccess
deriving DecidableEq, Repr

/-- Python dict insertion on an association list: updating an existing key
keeps its position, a new key is appended (insertion order preserved). -/
def dictInsert {A : Type} (d : List (String × A)) (k : String) (v : A) :
    List (String × A) :=
  if d.any (fun p => p.1 == k) then
    d.map (fun p => if p.1 == k then (k, v) else p)
  else
    d ++ [(k, v)]

/-- The keys of an association-list dict, in insertion order. -/
def dictKeys {A : Type} (d : List (String × A)) : List String :=
  d.map Prod.fst

/-- The state threaded through the per-country loop: the dict under
construction, the filesystem accesses so far, the log so far. -/
structure LoopState (A : Type) where
  catalog : List (String × A)
  trace : List FsAccess
  logs : List LogEvent

/-- The body of the for-loop of load_country_boundaries_to_dict
(boundaries_utils.py lines 106-123) for one country name: resolve the code,
build the cache path, check existence, read inside a try/except, and update
dict / trace / log exactly as the source does. -/
def loadStep {A : Type} (env : PycountryEnv) (fs : FileSystem A)
    (target_adm_level : Int) (release_type : String) (output_base_folder : String)
    (st : LoopState A) (country_name : String) : LoopState A :=
  match get_iso_code_from_country_name env country_name with
  | (some iso_code, resolverLogs) =>
      let cache_file_path := output_base_folder ++ "/" ++ iso_code ++ "_ADM"
        ++ toString target_adm_level ++ "_" ++ release_type ++ ".geojson"
      let st := { st with logs := st.logs ++ resolverLogs,
                          trace := st.trace ++ [FsAccess.existsCheck cache_file_path] }
      if fs.pathExists cache_file_path then
        let st := { st with
          logs := st.logs ++ [LogEvent.info ("Loading boundary data for "
            ++ country_name ++ " (ADM" ++ toString target_adm_level ++ ") from: "
            ++ cache_file_path)],
          trace := st.trace ++ [FsAccess.read cache_file_path] }
        match fs.read_file cache_file_path with
        | .ok boundary_gdf =>
            { st with
              catalog := dictInsert st.catalog country_name boundary_gdf,
              logs := st.logs ++ [LogEvent.info ("Successfully loaded "
                ++ country_name ++ " (ADM" ++ toString target_adm_level
                ++ ") as GeoDataFrame.")] }
        | .error e =>
            { st with
              logs := st.logs ++ [LogEvent.error ("Error loading GeoDataFrame for "
                ++ country_name ++ " (ADM" ++ toString target_adm_level
                ++ ") from file " ++ cache_file_path ++ ": " ++ e ++ ". Skipping.")] }
      else
        { st with
          logs := st.logs ++ [LogEvent.info ("Cache file not found for "
            ++ country_name ++ " (ADM" ++ toString target_adm_level ++ ") at "
            ++ cache_file_path
            ++ ". Please ensure you have run the fetch_boundaries function to download and save the data first.")] }
  | (Option.none, resolverLogs) =>
      { st with logs := st.logs ++ resolverLogs
          ++ [LogEvent.info ("Could not find ISO code for " ++ country_name
            ++ ". Skipping this country.")] }

/-- The epilogue log lines of load_country_boundaries_to_dict (lines 125-132):
a header, then one info line per dict entry, or the empty-dict line. -/
def summaryLogs {A : Type} (fs : FileSystem A) (target_adm_level : Int)
    (d : List (String × A)) : List LogEvent :=
  LogEvent.info "--- Contents of the final country_boundaries_dict ---" ::
    (if d.isEmpty then
      [LogEvent.info "The dictionary is empty. No boundary data could be loaded."]
    else
      d.map (fun p => LogEvent.info (p.1 ++ ": Loaded GeoDataFrame with "
        ++ toString (fs.len p.2) ++ " features for ADM"
        ++ toString target_adm_level ++ ".")))

/-- load_country_boundaries_to_dict (boundaries_utils.py lines 78-134): the
deterministic fold of loadStep over the input names, preceded by the header
log line and followed by the summary log lines; the returned value is the
catalog together with the filesystem-access trace and all emitted logs. -/
def load_country_boundaries_to_dict {A : Type} (env : PycountryEnv)
    (fs : FileSystem A) (country_names_to_load : List String)
    (target_adm_level : Int) (release_type : String)
    (output_base_folder : String) : LoopState A :=
  let init : LoopState A :=
    ⟨[], [], [LogEvent.info ("--- Creating dictionary: country_name -> boundary_gdf (ADM"
      ++ toString target_adm_level ++ ") ---")]⟩
  let st := country_names_to_load.foldl
    (loadStep env fs target_adm_level release_type output_base_folder) init
  { st with logs := st.logs ++ summaryLogs fs target_adm_level st.catalog }

/-!
Exception-transparent variant of the loader.  loadStepE is the per-item
body written in the Except monad, where the one raising call inside the
loop body (gpd.read_file) is bound monadically and the surrounding Python
try/except appears as the explicit match that converts the error back to a
normal state; the resolver call catches its own exceptions inside
get_iso_code_from_country_name (its lookupError / otherError outcomes are
the raises it catches).  An exception a handler missed would surface here
as an Except.error of the whole call.
-/

/-- Per-item loop body in the Except monad; only gpd.read_file can raise,
and its raise is caught by the match that mirrors the try/except of
boundaries_utils.py lines 111-118. -/
def loadStepE {A : Type} (env : PycountryEnv) (fs : FileSystem A)
    (target_adm_level : Int) (release_type : String) (output_base_folder : String)
    (st : LoopState A) (country_name : String) : Except String (LoopState A) :=
  match get_iso_code_from_country_name env country_name with
  | (some iso_code, resolverLogs) =>
      let cache_file_path := output_base_folder ++ "/" ++ iso_code ++ "_ADM"
        ++ toString target_adm_level ++ "_" ++ release_type ++ ".geojson"
      let st := { st with logs := st.logs ++ resolverLogs,
                          trace := st.trace ++ [FsAccess.existsCheck cache_file_path] }
      if fs.pathExists cache_file_path then
        let st := { st with
          logs := st.logs ++ [LogEvent.info ("Loading boundary data for "
            ++ country_name ++ " (ADM" ++ toString target_adm_level ++ ") from: "
            ++ cache_file_path)],
          trace := st.trace ++ [FsAccess.read cache_file_path] }
        match (do
            let boundary_gdf ← fs.read_file cache_file_path
            pure { st with
              catalog := dictInsert st.catalog country_name boundary_gdf,
              logs := st.logs ++ [LogEvent.info ("Successfully loaded "
                ++ country_name ++ " (ADM" ++ toString target_adm_level
                ++ ") as GeoDataFrame.")] } : Except String (LoopState A)) with
        | .ok st2 => Except.ok st2
        | .error e =>
            Except.ok { st with
              logs := st.logs ++ [LogEvent.error ("Error loading GeoDataFrame for "
                ++ country_name ++ " (ADM" ++ toString target_adm_level
                ++ ") from file " ++ cache_file_path ++ ": " ++ e ++ ". Skipping.")] }
      else
        Except.ok { st with
          logs := st.logs ++ [LogEvent.info ("Cache file not found for "
            ++ country_name ++ " (ADM" ++ toString target_adm_level ++ ") at "
            ++ cache_file_path
            ++ ". Please ensure you have run the fetch_boundaries function to download and save the data first.")] }
  | (Option.none, resolverLogs) =>
      Except.ok { st with logs := st.logs ++ resolverLogs
          ++ [LogEvent.info ("Could not find ISO code for " ++ country_name
            ++ ". Skipping this country.")] }

/-- The loader in the Except monad: an uncaught exception anywhere in the
per-item loop would propagate to an Except.error of the whole call. -/
def load_country_boundaries_to_dictE {A : Type} (env : PycountryEnv)
    (fs : FileSystem A) (country_names_to_load : List String)
    (target_adm_level : Int) (release_type : String)
    (output_base_folder : String) : Except String (LoopState A) := do
  let init : LoopState A :=
    ⟨[], [], [LogEvent.info ("--- Creating dictionary: country_name -> boundary_gdf (ADM"
      ++ toString target_adm_level ++ ") ---")]⟩
  let st ← country_names_to_load.foldlM
    (loadStepE env fs target_adm_level release_type output_base_folder) init
  pure { st with logs := st.logs ++ summaryLogs fs target_adm_level st.catalog }

/-!
Spec-side observation functions.  These restate, from the spec wording,
the quantities the claims talk about: the resolved code of a name, the
cache file path formula, the three success gates, and the per-item
catalog / trace effect.  They are compared against the embedded loader.
-/

/-- The code a country name resolves to (first component of the resolver). -/
def resolvesTo (env : PycountryEnv) (name : String) : Option String :=
  (get_iso_code_from_country_name env name).fst

/-- Modelled from the spec: the CacheFilePath formula of section 3,
base/ISO_ADMlevel_release.geojson. -/
def cacheFilePathSpec (base iso : String) (level : Int) (release : String) : String :=
  base ++ "/" ++ iso ++ "_ADM" ++ toString level ++ "_" ++ release ++ ".geojson"

/-- Whether the reader succeeds on a path. -/
def readSucceeds {A : Type} (fs : FileSystem A) (p : String) : Bool :=
  match fs.read_file p with
  | .ok _ => true
  | .error _ => false

/-- The three success gates of the spec for one name: resolves to a code,
cache file exists, reader succeeds. -/
def gatesPass {A : Type} (env : PycountryEnv) (fs : FileSystem A)
    (level : Int) (release base : String) (name : String) : Bool :=
  match resolvesTo env name with
  | some iso =>
      fs.pathExists (cacheFilePathSpec base iso level release)
        && readSucceeds fs (cacheFilePathSpec base iso level release)
  | Option.none => false

/-- The effect of one loop iteration on the catalog alone. -/
def stepCatalog {A : Type} (env : PycountryEnv) (fs : FileSystem A)
    (level : Int) (release base : String)
    (d : List (String × A)) (name : String) : List (String × A) :=
  match resolvesTo env name with
  | some iso =>
      match fs.pathExists (cacheFilePathSpec base iso level release),
            fs.read_file (cacheFilePathSpec base iso level release) with
      | true, .ok v => dictInsert d name v
      | true, .error _ => d
      | false, _ => d
  | Option.none => d

/-- The filesystem accesses one loop iteration performs. -/
def stepTrace {A : Type} (env : PycountryEnv) (fs : FileSystem A)
    (level : Int) (release base : String) (name : String) : List FsAccess :=
  match resolvesTo env name with
  | some iso =>
      if fs.pathExists (cacheFilePathSpec base iso level release) then
        [FsAccess.existsCheck (cacheFilePathSpec base iso level release),
         FsAccess.read (cacheFilePathSpec base iso level release)]
      else
        [FsAccess.existsCheck (cacheFilePathSpec base iso level release)]
  | Option.none => []

/-- The filesystem accesses of a whole run, in order. -/
def tracesOf {A : Type} (env : PycountryEnv) (fs : FileSystem A)
    (level : Int) (release base : String) : List String → List FsAccess
  | [] => []
  | n :: ns => stepTrace env fs level release base n
      ++ tracesOf env fs level release base ns

/-- Whether processing name n makes the loader read path p: n resolves to a
code whose cache path is p and that path exists. -/
def attemptsRead {A : Type} (env : PycountryEnv) (fs : FileSystem A)
    (level : Int) (release base p : String) (n : String) : Bool :=
  match resolvesTo env n with
  | some iso => (cacheFilePathSpec base iso level release == p)
      && fs.pathExists (cacheFilePathSpec base iso level release)
  | Option.none => false

/-- Boolean membership of a string in a list of strings. -/
def hasStr (ks : List String) (x : String) : Bool :=
  ks.any (fun y => y == x)

/-- Append to ks the members of the second list that are not yet present,
left to right, skipping later duplicates: the key order a Python dict built
by successive insertions exhibits. -/
def addKeys (ks : List String) : List String → List String
  | [] => ks
  | x :: xs => addKeys (if hasStr ks x then ks else ks ++ [x]) xs

/-- Lookup in an association-list dict (first match). -/
def dictGet {A : Type} (d : List (String × A)) (k : String) : Option A :=
  match d with
  | [] => Option.none
  | p :: rest => if p.1 == k then some p.2 else dictGet rest k

/-!
Concrete fixtures used by witnesses: a tiny pycountry database knowing
Canada and the United States, a filesystem holding exactly the Canadian
ADM0 cache file (GeoDataFrames stand in as Nat), a database copy, and a
database whose lookups all raise.
-/

/-- Fixture: the Canada record. -/
def canada : Country := ⟨"Canada", "CA", "CAN"⟩

/-- Fixture: the United States record. -/
def usa : Country := ⟨"United States", "US", "USA"⟩

/-- Fixture: a pycountry database knowing exactly Canada and the United
States; fuzzy search raises LookupError on anything else. -/
def testEnv : PycountryEnv where
  getAlpha2 := fun s => Except.ok
    (if s == "CA" then some canada else if s == "US" then some usa else Option.none)
  getAlpha3 := fun s => Except.ok
    (if s == "CAN" then some canada else if s == "USA" then some usa else Option.none)
  search_fuzzy := fun s =>
    if s == "Canada" then SearchOutcome.found [canada]
    else if s == "United States" then SearchOutcome.found [usa]
    else SearchOutcome.lookupError

/-- Fixture: a filesystem holding exactly the Canadian ADM0 cache file,
read as the stand-in record 7; any other read fails. -/
def testFs : FileSystem Nat where
  pathExists := fun p => p == "out/CAN_ADM0_gbOpen.geojson"
  read_file := fun p =>
    if p == "out/CAN_ADM0_gbOpen.geojson" then Except.ok 7
    else Except.error "file corrupt"
  len := fun n => n

/-- Fixture: a second, pointwise-equal copy of testEnv. -/
def testEnvB : PycountryEnv where
  getAlpha2 := fun s => Except.ok
    (if s == "CA" then some canada else if s == "US" then some usa else Option.none)
  getAlpha3 := fun s => Except.ok
    (if s == "CAN" then some canada else if s == "USA" then some usa else Option.none)
  search_fuzzy := fun s =>
    if s == "Canada" then SearchOutcome.found [canada]
    else if s == "United States" then SearchOutcome.found [usa]
    else SearchOutcome.lookupError

/-- Fixture: a second, pointwise-equal copy of testFs. -/
def testFsB : FileSystem Nat where
  pathExists := fun p => p == "out/CAN_ADM0_gbOpen.geojson"
  read_file := fun p =>
    if p == "out/CAN_ADM0_gbOpen.geojson" then Except.ok 7
    else Except.error "file corrupt"
  len := fun n => n

/-- Fixture: a pycountry database whose every lookup raises. -/
def testEnvRaise : PycountryEnv where
  getAlpha2 := fun _ => Except.error "database unavailable"
  getAlpha3 := fun _ => Except.error "database unavailable"
  search_fuzzy := fun _ => SearchOutcome.otherError "database unavailable"

/-!
Helper lemmas about the association-list dict, boolean membership and
addKeys.
-/

theorem hasStr_iff_mem (ks : List String) (x : String) :
    hasStr ks x = true ↔ x ∈ ks := by
  simp [hasStr, List.any_eq_true]

theorem hasStr_append (ks ls : List String) (x : String) :
    hasStr (ks ++ ls) x = (hasStr ks x || hasStr ls x) := by
  simp [hasStr, List.any_append]

theorem hasStr_dictKeys {A : Type} (d : List (String × A)) (k : String) :
    hasStr (dictKeys d) k = d.any (fun p => p.1 == k) := by
  induction d with
  | nil => rfl
  | cons p rest ih => simp [hasStr, dictKeys, List.any_cons] at ih ⊢; rw [ih]

theorem updFun_fst {A : Type} (k : String) (v : A) (p : String × A) :
    (if p.1 == k then (k, v) else p).1 = p.1 := by
  cases h : p.1 == k
  · simp [h]
  · simp [h, (eq_of_beq h).symm]

theorem dictKeys_dictInsert {A : Type} (d : List (String × A)) (k : String) (v : A) :
    dictKeys (dictInsert d k v)
      = if hasStr (dictKeys d) k then dictKeys d else dictKeys d ++ [k] := by
  unfold dictInsert
  rw [hasStr_dictKeys]
  cases h : d.any (fun p => p.1 == k)
  · simp [h, dictKeys]
  · simp only [h, if_true, dictKeys, List.map_map]
    have hfun : (Prod.fst ∘ (fun p : String × A => if p.1 == k then (k, v) else p))
        = Prod.fst := funext fun p => updFun_fst k v p
    rw [hfun]

theorem dictGet_isSome_iff {A : Type} (d : List (String × A)) (k : String) :
    (dictGet d k).isSome = true ↔ k ∈ dictKeys d := by
  induction d with
  | nil => simp [dictGet, dictKeys]
  | cons p rest ih =>
      simp only [dictGet, dictKeys, List.map_cons, List.mem_cons]
      cases h : p.1 == k
      · have hne : ¬ k = p.1 := by
          intro he
          rw [he] at h
          simp at h
        simp [h, ih, dictKeys, hne]
      · simp [h, eq_of_beq h]

theorem dictGet_none_of_hasStr_false {A : Type} (d : List (String × A)) (k : String) :
    hasStr (dictKeys d) k = false → dictGet d k = Option.none := by
  induction d with
  | nil => intro _; rfl
  | cons p rest ih =>
      intro h
      rw [hasStr_dictKeys] at h
      simp only [List.any_cons, Bool.or_eq_false_iff] at h
      simp only [dictGet, h.1]
      exact ih (by rw [hasStr_dictKeys]; exact h.2)

theorem dictGet_append_of_none {A : Type} (d l : List (String × A)) (k : String) :
    dictGet d k = Option.none → dictGet (d ++ l) k = dictGet l k := by
  induction d with
  | nil => intro _; rfl
  | cons p rest ih =>
      intro h
      simp only [dictGet] at h ⊢
      cases hp : p.1 == k
      · simp only [hp] at h ⊢
        simp at h ⊢
        exact ih h
      · simp [hp] at h

theorem dictGet_map_upd_self {A : Type} (d : List (String × A)) (k : String) (v : A) :
    d.any (fun p => p.1 == k) = true →
    dictGet (d.map (fun p => if p.1 == k then (k, v) else p)) k = some v := by
  induction d with
  | nil => intro h; simp at h
  | cons p rest ih =>
      intro h
      cases hp : p.1 == k
      · simp only [List.any_cons, hp, Bool.false_or] at h
        simp only [List.map_cons, dictGet, hp, Bool.false_eq_true, if_false]
        exact ih h
      · simp [List.map_cons, dictGet, hp]

theorem dictGet_map_upd_other {A : Type} (d : List (String × A)) (k n : String) (v : A)
    (hkn : ¬ k = n) :
    dictGet (d.map (fun p => if p.1 == n then (n, v) else p)) k = dictGet d k := by
  induction d with
  | nil => rfl
  | cons p rest ih =>
      cases hp : p.1 == n
      · simp only [List.map_cons, hp, dictGet]
        simp only [Bool.false_eq_true, if_false]
        rw [ih]
      · have hnk : (n == k) = false := by
          cases hq : n == k
          · rfl
          · exact absurd (eq_of_beq hq).symm hkn
        have hpk : ¬ p.1 = k := by
          rw [eq_of_beq hp]
          intro he
          exact hkn he.symm
        simp only [List.map_cons, hp, dictGet, if_true]
        simp only [hnk, Bool.false_eq_true, if_false, ih]
        simp [dictGet, hnk, hpk]

theorem dictGet_append_single_other {A : Type} (d : List (String × A)) (k n : String)
    (v : A) (hkn : ¬ k = n) :
    dictGet (d ++ [(n, v)]) k = dictGet d k := by
  induction d with
  | nil =>
      have hnk : (n == k) = false := by
        cases hq : n == k
        · rfl
        · exact absurd (eq_of_beq hq).symm hkn
      simp [dictGet, hnk]
  | cons p rest ih =>
      simp only [List.cons_append, dictGet]
      cases hp : p.1 == k
      · simp only [Bool.false_eq_true, if_false]
        exact ih
      · simp

theorem dictGet_dictInsert_self {A : Type} (d : List (String × A)) (k : String) (v : A) :
    dictGet (dictInsert d k v) k = some v := by
  unfold dictInsert
  cases h : d.any (fun p => p.1 == k)
  · simp only [Bool.false_eq_true, if_false]
    rw [dictGet_append_of_none]
    · simp [dictGet]
    · exact dictGet_none_of_hasStr_false d k (by rw [hasStr_dictKeys]; exact h)
  · simp only [if_true]
    exact dictGet_map_upd_self d k v h

theorem dictGet_dictInsert_other {A : Type} (d : List (String × A)) (k n : String)
    (v : A) (hkn : ¬ k = n) :
    dictGet (dictInsert d n v) k = dictGet d k := by
  unfold dictInsert
  cases h : d.any (fun p => p.1 == n)
  · simp only [Bool.false_eq_true, if_false]
    exact dictGet_append_single_other d k n v hkn
  · simp only [if_true]
    exact dictGet_map_upd_other d k n v hkn

theorem mem_addKeys (x : String) (l ks : List String) :
    x ∈ addKeys ks l ↔ x ∈ ks ∨ x ∈ l := by
  induction l generalizing ks with
  | nil => simp [addKeys]
  | cons y ys ih =>
      simp only [addKeys]
      rw [ih]
      cases h : hasStr ks y
      · simp only [h, Bool.false_eq_true, if_false, List.mem_append,
          List.mem_singleton, List.mem_cons]
        tauto
      · have hy : y ∈ ks := (hasStr_iff_mem ks y).1 h
        simp only [h, if_true, List.mem_cons]
        constructor
        · rintro (hx | hx)
          · exact Or.inl hx
          · exact Or.inr (Or.inr hx)
        · rintro (hx | hx | hx)
          · exact Or.inl hx
          · exact Or.inl (hx ▸ hy)
          · exact Or.inr hx

theorem addKeys_eq_append (l ks : List String) (hnd : l.Nodup)
    (hks : ∀ x ∈ l, hasStr ks x = false) : addKeys ks l = ks ++ l := by
  induction l generalizing ks with
  | nil => simp [addKeys]
  | cons y ys ih =>
      have hy : hasStr ks y = false := hks y (by simp)
      simp only [addKeys, hy, Bool.false_eq_true, if_false]
      rw [ih (ks ++ [y]) (List.Nodup.of_cons hnd)]
      · simp
      · intro x hx
        rw [hasStr_append]
        have hxy : ¬ y = x := by
          intro he
          exact (List.nodup_cons.1 hnd).1 (he ▸ hx)
        have h1 : hasStr ks x = false := hks x (List.mem_cons_of_mem y hx)
        have h2 : hasStr [y] x = false := by
          cases hq : hasStr [y] x
          · rfl
          · have := (hasStr_iff_mem [y] x).1 hq
            simp at this
            exact absurd this.symm hxy
        rw [h1, h2]
        rfl

theorem dictKeys_nodup_dictInsert {A : Type} (d : List (String × A)) (k : String)
    (v : A) (hnd : (dictKeys d).Nodup) : (dictKeys (dictInsert d k v)).Nodup := by
  rw [dictKeys_dictInsert]
  cases h : hasStr (dictKeys d) k
  · simp only [Bool.false_eq_true, if_false]
    rw [List.nodup_append]
    refine ⟨hnd, List.nodup_singleton k, ?_⟩
    intro x hx hk
    simp at hk
    rw [hk] at hx
    exact absurd ((hasStr_iff_mem _ _).2 hx) (by simp [h])
  · simp [hnd]

/-!
Projection lemmas: one loop iteration acts on the catalog as stepCatalog
and appends stepTrace to the access trace.
-/

theorem loadStep_catalog {A : Type} (env : PycountryEnv) (fs : FileSystem A)
    (level : Int) (release base : String) (st : LoopState A) (n : String) :
    (loadStep env fs level release base st n).catalog
      = stepCatalog env fs level release base st.catalog n := by
  rcases hg : get_iso_code_from_country_name env n with ⟨iso?, lgs⟩
  have hr : resolvesTo env n = iso? := by rw [resolvesTo, hg]
  cases iso? with
  | none => simp [loadStep, stepCatalog, hg, hr]
  | some iso =>
      simp only [loadStep, stepCatalog, hg, hr, cacheFilePathSpec]
      cases hpe : fs.pathExists (base ++ "/" ++ iso ++ "_ADM" ++ toString level
          ++ "_" ++ release ++ ".geojson")
      · simp [hpe]
      · cases hrd : fs.read_file (base ++ "/" ++ iso ++ "_ADM" ++ toString level
            ++ "_" ++ release ++ ".geojson")
        · simp [hpe, hrd]
        · simp [hpe, hrd]

theorem loadStep_trace {A : Type} (env : PycountryEnv) (fs : FileSystem A)
    (level : Int) (release base : String) (st : LoopState A) (n : String) :
    (loadStep env fs level release base st n).trace
      = st.trace ++ stepTrace env fs level release base n := by
  rcases hg : get_iso_code_from_country_name env n with ⟨iso?, lgs⟩
  have hr : resolvesTo env n = iso? := by rw [resolvesTo, hg]
  cases iso? with
  | none => simp [loadStep, stepTrace, hg, hr]
  | some iso =>
      simp only [loadStep, stepTrace, hg, hr, cacheFilePathSpec]
      cases hpe : fs.pathExists (base ++ "/" ++ iso ++ "_ADM" ++ toString level
          ++ "_" ++ release ++ ".geojson")
      · simp [hpe]
      · cases hrd : fs.read_file (base ++ "/" ++ iso ++ "_ADM" ++ toString level
            ++ "_" ++ release ++ ".geojson")
        · simp [hpe, hrd]
        · simp [hpe, hrd]

theorem foldl_loadStep_catalog {A : Type} (env : PycountryEnv) (fs : FileSystem A)
    (level : Int) (release base : String) (ns : List String) (st : LoopState A) :
    (ns.foldl (loadStep env fs level release base) st).catalog
      = ns.foldl (stepCatalog env fs level release base) st.catalog := by
  induction ns generalizing st with
  | nil => rfl
  | cons n ns ih =>
      simp only [List.foldl_cons]
      rw [ih, loadStep_catalog]

theorem foldl_loadStep_trace {A : Type} (env : PycountryEnv) (fs : FileSystem A)
    (level : Int) (release base : String) (ns : List String) (st : LoopState A) :
    (ns.foldl (loadStep env fs level release base) st).trace
      = st.trace ++ tracesOf env fs level release base ns := by
  induction ns generalizing st with
  | nil => simp [tracesOf]
  | cons n ns ih =>
      simp only [List.foldl_cons, tracesOf]
      rw [ih, loadStep_trace, List.append_assoc]

theorem load_catalog {A : Type} (env : PycountryEnv) (fs : FileSystem A)
    (ns : List String) (level : Int) (release base : String) :
    (load_country_boundaries_to_dict env fs ns level release base).catalog
      = ns.foldl (stepCatalog env fs level release base) [] := by
  unfold load_country_boundaries_to_dict
  rw [foldl_loadStep_catalog]

theorem load_trace {A : Type} (env : PycountryEnv) (fs : FileSystem A)
    (ns : List String) (level : Int) (release base : String) :
    (load_country_boundaries_to_dict env fs ns level release base).trace
      = tracesOf env fs level release base ns := by
  unfold load_country_boundaries_to_dict
  rw [foldl_loadStep_trace]
  rfl

/-!
Characterisation of the catalog fold: keys, membership, lookup.
-/

theorem stepCatalog_keys {A : Type} (env : PycountryEnv) (fs : FileSystem A)
    (level : Int) (release base : String) (d : List (String × A)) (n : String) :
    dictKeys (stepCatalog env fs level release base d n)
      = if gatesPass env fs level release base n then
          (if hasStr (dictKeys d) n then dictKeys d else dictKeys d ++ [n])
        else dictKeys d := by
  unfold stepCatalog gatesPass
  cases hr : resolvesTo env n with
  | none => simp
  | some iso =>
      cases hpe : fs.pathExists (cacheFilePathSpec base iso level release)
      · simp [hpe]
      · cases hrd : fs.read_file (cacheFilePathSpec base iso level release)
        · simp [hpe, hrd, readSucceeds]
        · simp [hpe, hrd, readSucceeds, dictKeys_dictInsert]

theorem stepCatalog_of_not_gates {A : Type} (env : PycountryEnv) (fs : FileSystem A)
    (level : Int) (release base : String) (d : List (String × A)) (n : String)
    (h : gatesPass env fs level release base n = false) :
    stepCatalog env fs level release base d n = d := by
  unfold gatesPass at h
  cases hr : resolvesTo env n with
  | none => simp [stepCatalog, hr]
  | some iso =>
      rw [hr] at h
      simp only at h
      cases hpe : fs.pathExists (cacheFilePathSpec base iso level release)
      · simp [stepCatalog, hr, hpe]
      · cases hrd : fs.read_file (cacheFilePathSpec base iso level release)
        · simp [stepCatalog, hr, hpe, hrd]
        · simp [hpe, readSucceeds, hrd] at h

theorem foldl_stepCatalog_keys {A : Type} (env : PycountryEnv) (fs : FileSystem A)
    (level : Int) (release base : String) (ns : List String) (d : List (String × A)) :
    dictKeys (ns.foldl (stepCatalog env fs level release base) d)
      = addKeys (dictKeys d) (ns.filter (gatesPass env fs level release base)) := by
  induction ns generalizing d with
  | nil => rfl
  | cons n ns ih =>
      simp only [List.foldl_cons, List.filter_cons]
      cases hg : gatesPass env fs level release base n
      · simp only [Bool.false_eq_true, if_false]
        rw [ih, stepCatalog_of_not_gates env fs level release base d n hg]
      · simp only [if_true, addKeys]
        rw [ih]
        congr 1
        rw [stepCatalog_keys, hg]
        simp

theorem stepCatalog_nodup {A : Type} (env : PycountryEnv) (fs : FileSystem A)
    (level : Int) (release base : String) (d : List (String × A)) (n : String)
    (hnd : (dictKeys d).Nodup) :
    (dictKeys (stepCatalog env fs level release base d n)).Nodup := by
  cases hr : resolvesTo env n with
  | none => simpa [stepCatalog, hr]
  | some iso =>
      cases hpe : fs.pathExists (cacheFilePathSpec base iso level release)
      · simpa [stepCatalog, hr, hpe]
      · cases hrd : fs.read_file (cacheFilePathSpec base iso level release)
        · simpa [stepCatalog, hr, hpe, hrd]
        · simp only [stepCatalog, hr, hpe, hrd]
          exact dictKeys_nodup_dictInsert _ _ _ hnd

theorem foldl_stepCatalog_nodup {A : Type} (env : PycountryEnv) (fs : FileSystem A)
    (level : Int) (release base : String) (ns : List String) (d : List (String × A))
    (hnd : (dictKeys d).Nodup) :
    (dictKeys (ns.foldl (stepCatalog env fs level release base) d)).Nodup := by
  induction ns generalizing d with
  | nil => exact hnd
  | cons n ns ih =>
      simp only [List.foldl_cons]
      exact ih _ (stepCatalog_nodup env fs level release base d n hnd)

theorem stepCatalog_get_other {A : Type} (env : PycountryEnv) (fs : FileSystem A)
    (level : Int) (release base : String) (d : List (String × A)) (k n : String)
    (hkn : ¬ k = n) :
    dictGet (stepCatalog env fs level release base d n) k = dictGet d k := by
  cases hr : resolvesTo env n with
  | none => simp [stepCatalog, hr]
  | some iso =>
      cases hpe : fs.pathExists (cacheFilePathSpec base iso level release)
      · simp [stepCatalog, hr, hpe]
      · cases hrd : fs.read_file (cacheFilePathSpec base iso level release)
        · simp [stepCatalog, hr, hpe, hrd]
        · simp only [stepCatalog, hr, hpe, hrd]
          exact dictGet_dictInsert_other d k n _ hkn

theorem foldl_stepCatalog_get_not_mem {A : Type} (env : PycountryEnv)
    (fs : FileSystem A) (level : Int) (release base : String) (name : String) :
    ∀ (ns : List String) (d : List (String × A)), name ∉ ns →
      dictGet (ns.foldl (stepCatalog env fs level release base) d) name
        = dictGet d name := by
  intro ns
  induction ns with
  | nil => intro d _; rfl
  | cons n ns ih =>
      intro d h
      have hne : ¬ name = n := fun he => h (by simp [he])
      have hns : name ∉ ns := fun hm => h (List.mem_cons_of_mem _ hm)
      simp only [List.foldl_cons]
      rw [ih _ hns]
      exact stepCatalog_get_other env fs level release base d name n hne

theorem foldl_stepCatalog_get {A : Type} (env : PycountryEnv) (fs : FileSystem A)
    (level : Int) (release base : String) (name iso : String) (v : A)
    (hr : resolvesTo env name = some iso)
    (hpe : fs.pathExists (cacheFilePathSpec base iso level release) = true)
    (hrd : fs.read_file (cacheFilePathSpec base iso level release) = Except.ok v) :
    ∀ (ns : List String) (d : List (String × A)), name ∈ ns →
      dictGet (ns.foldl (stepCatalog env fs level release base) d) name = some v := by
  intro ns
  induction ns with
  | nil => intro d h; cases h
  | cons n ns ih =>
      intro d hmem
      simp only [List.foldl_cons]
      by_cases hnn : name = n
      · subst hnn
        by_cases hm2 : name ∈ ns
        · exact ih _ hm2
        · rw [foldl_stepCatalog_get_not_mem env fs level release base name ns _ hm2]
          simp only [stepCatalog, hr, hpe, hrd]
          exact dictGet_dictInsert_self d name v
      · rcases List.mem_cons.mp hmem with he | hm2
        · exact absurd he hnn
        · exact ih _ hm2

/-!
Trace characterisation lemmas.
-/

theorem mem_stepTrace {A : Type} (env : PycountryEnv) (fs : FileSystem A)
    (level : Int) (release base : String) (n : String) (a : FsAccess)
    (h : a ∈ stepTrace env fs level release base n) :
    ∃ iso, resolvesTo env n = some iso ∧
      (a = FsAccess.existsCheck (cacheFilePathSpec base iso level release) ∨
       a = FsAccess.read (cacheFilePathSpec base iso level release)) := by
  unfold stepTrace at h
  cases hr : resolvesTo env n with
  | none => rw [hr] at h; cases h
  | some iso =>
      rw [hr] at h
      simp only at h
      refine ⟨iso, rfl, ?_⟩
      split at h
      · simp at h
        tauto
      · simp at h
        tauto

theorem mem_tracesOf {A : Type} (env : PycountryEnv) (fs : FileSystem A)
    (level : Int) (release base : String) (a : FsAccess) :
    ∀ ns : List String, a ∈ tracesOf env fs level release base ns →
      ∃ n, n ∈ ns ∧ a ∈ stepTrace env fs level release base n := by
  intro ns
  induction ns with
  | nil => intro h; cases h
  | cons n ns ih =>
      intro h
      rcases List.mem_append.mp h with h1 | h2
      · exact ⟨n, by simp, h1⟩
      · rcases ih h2 with ⟨m, hm, ha⟩
        exact ⟨m, List.mem_cons_of_mem _ hm, ha⟩

theorem count_read_stepTrace {A : Type} (env : PycountryEnv) (fs : FileSystem A)
    (level : Int) (release base p : String) (n : String) :
    (stepTrace env fs level release base n).count (FsAccess.read p)
      = if attemptsRead env fs level release base p n then 1 else 0 := by
  unfold stepTrace attemptsRead
  cases hr : resolvesTo env n with
  | none => simp
  | some iso =>
      simp only
      by_cases hpe : fs.pathExists (cacheFilePathSpec base iso level release) = true
      · simp only [hpe, if_true, Bool.and_true]
        by_cases heq : cacheFilePathSpec base iso level release = p
        · simp [List.count_cons, List.count_nil, heq]
        · have hq : (cacheFilePathSpec base iso level release == p) = false := by
            simpa using heq
          simp [List.count_cons, List.count_nil, hq, heq]
      · have hpe2 : fs.pathExists (cacheFilePathSpec base iso level release) = false := by
          simpa using hpe
        simp [hpe2, List.count_cons, List.count_nil]

theorem count_read_tracesOf {A : Type} (env : PycountryEnv) (fs : FileSystem A)
    (level : Int) (release base p : String) (ns : List String) :
    (tracesOf env fs level release base ns).count (FsAccess.read p)
      = ns.countP (attemptsRead env fs level release base p) := by
  induction ns with
  | nil => rfl
  | cons n ns ih =>
      simp only [tracesOf, List.count_append, List.countP_cons, ih,
        count_read_stepTrace]
      cases hA : attemptsRead env fs level release base p n
      · simp
      · simp [Nat.add_comm]

/-!
The exception-transparent loader agrees with the pure one, step by step.
-/

theorem loadStepE_eq {A : Type} (env : PycountryEnv) (fs : FileSystem A)
    (level : Int) (release base : String) (st : LoopState A) (n : String) :
    loadStepE env fs level release base st n
      = Except.ok (loadStep env fs level release base st n) := by
  rcases hg : get_iso_code_from_country_name env n with ⟨iso?, lgs⟩
  cases iso? with
  | none => simp [loadStepE, loadStep, hg]
  | some iso =>
      simp only [loadStepE, loadStep, hg]
      by_cases hpe : fs.pathExists (base ++ "/" ++ iso ++ "_ADM" ++ toString level
          ++ "_" ++ release ++ ".geojson") = true
      · simp only [hpe, if_true]
        cases hrd : fs.read_file (base ++ "/" ++ iso ++ "_ADM" ++ toString level
            ++ "_" ++ release ++ ".geojson")
        · simp [hrd, Except.bind]
        · simp [hrd, Except.bind]
      · simp [hpe]

theorem foldlM_loadStepE {A : Type} (env : PycountryEnv) (fs : FileSystem A)
    (level : Int) (release base : String) (ns : List String) (st : LoopState A) :
    ns.foldlM (loadStepE env fs level release base) st
      = Except.ok (ns.foldl (loadStep env fs level release base) st) := by
  induction ns generalizing st with
  | nil => rfl
  | cons n ns ih =>
      rw [List.foldlM_cons, loadStepE_eq]
      exact ih (loadStep env fs level release base st n)

/-!
Congruence: the catalog depends on the collaborators only through their
pointwise behaviour.
-/

theorem resolvesTo_congr (env1 env2 : PycountryEnv)
    (hsf : ∀ s, env1.search_fuzzy s = env2.search_fuzzy s) (n : String) :
    resolvesTo env1 n = resolvesTo env2 n := by
  unfold resolvesTo get_iso_code_from_country_name
  rw [hsf n]

theorem stepCatalog_congr {A : Type} (env1 env2 : PycountryEnv)
    (fs1 fs2 : FileSystem A)
    (hsf : ∀ s, env1.search_fuzzy s = env2.search_fuzzy s)
    (hex : ∀ p, fs1.pathExists p = fs2.pathExists p)
    (hrd : ∀ p, fs1.read_file p = fs2.read_file p)
    (level : Int) (release base : String) (d : List (String × A)) (n : String) :
    stepCatalog env1 fs1 level release base d n
      = stepCatalog env2 fs2 level release base d n := by
  unfold stepCatalog
  rw [resolvesTo_congr env1 env2 hsf n]
  cases resolvesTo env2 n with
  | none => rfl
  | some iso =>
      dsimp only
      rw [hex, hrd]

theorem foldl_stepCatalog_congr {A : Type} (env1 env2 : PycountryEnv)
    (fs1 fs2 : FileSystem A)
    (hsf : ∀ s, env1.search_fuzzy s = env2.search_fuzzy s)
    (hex : ∀ p, fs1.pathExists p = fs2.pathExists p)
    (hrd : ∀ p, fs1.read_file p = fs2.read_file p)
    (level : Int) (release base : String) (ns : List String) (d : List (String × A)) :
    ns.foldl (stepCatalog env1 fs1 level release base) d
      = ns.foldl (stepCatalog env2 fs2 level release base) d := by
  induction ns generalizing d with
  | nil => rfl
  | cons n ns ih =>
      simp only [List.foldl_cons]
      rw [stepCatalog_congr env1 env2 fs1 fs2 hsf hex hrd level release base d n]
      exact ih _

theorem foldl_stepCatalog_all_unresolved {A : Type} (env : PycountryEnv)
    (fs : FileSystem A) (level : Int) (release base : String) :
    ∀ (ns : List String) (d : List (String × A)),
      (∀ n ∈ ns, resolvesTo env n = Option.none) →
      ns.foldl (stepCatalog env fs level release base) d = d := by
  intro ns
  induction ns with
  | nil => intro d _; rfl
  | cons n ns ih =>
      intro d h
      have hn : resolvesTo env n = Option.none := h n (by simp)
      simp only [List.foldl_cons]
      rw [show stepCatalog env fs level release base d n = d by
        simp [stepCatalog, hn]]
      exact ih d (fun m hm => h m (List.mem_cons_of_mem _ hm))

/-- Claim C1: the loader folds over the input names in order; a name has an
entry in the returned catalog iff it resolves to a code, the computed cache
path exists and the reader succeeds (gatesPass); the catalog keys are the
successfully loaded names in input iteration order (first occurrence for a
duplicated name), and when the successful names are pairwise distinct the
key list equals exactly that filtered input list. -/
theorem c1_catalog_entries_and_key_order {A : Type} (env : PycountryEnv)
    (fs : FileSystem A) (names : List String) (level : Int) (release base : String) :
    dictKeys (load_country_boundaries_to_dict env fs names level release base).catalog
      = addKeys [] (names.filter (gatesPass env fs level release base)) ∧
    (∀ name,
      (dictGet (load_country_boundaries_to_dict env fs names level release base).catalog
          name).isSome = true
        ↔ (name ∈ names ∧ gatesPass env fs level release base name = true)) ∧
    ((names.filter (gatesPass env fs level release base)).Nodup →
      dictKeys (load_country_boundaries_to_dict env fs names level release base).catalog
        = names.filter (gatesPass env fs level release base)) := by
  have hkeys : dictKeys
      (load_country_boundaries_to_dict env fs names level release base).catalog
      = addKeys [] (names.filter (gatesPass env fs level release base)) := by
    rw [load_catalog, foldl_stepCatalog_keys]
    rfl
  refine ⟨hkeys, ?_, ?_⟩
  · intro name
    rw [dictGet_isSome_iff, hkeys, mem_addKeys]
    simp [List.mem_filter, and_comm]
  · intro hnd
    rw [hkeys, addKeys_eq_append (names.filter (gatesPass env fs level release base))
      [] hnd (fun x _ => rfl)]
    rfl

/-- Claim C1 witness: with the concrete database and filesystem, of the
names Canada (all gates pass), Germany (no code resolves) and United
States (code resolves but the cache file is missing) only Canada ends up
in the catalog, in input order. -/
theorem c1_witness :
    (["Canada", "Germany", "United States"].filter
        (gatesPass testEnv testFs 0 "gbOpen" "out")).Nodup ∧
    dictKeys (load_country_boundaries_to_dict testEnv testFs
        ["Canada", "Germany", "United States"] 0 "gbOpen" "out").catalog
      = ["Canada", "Germany", "United States"].filter
          (gatesPass testEnv testFs 0 "gbOpen" "out") :=
  ⟨by decide,
   (c1_catalog_entries_and_key_order testEnv testFs
      ["Canada", "Germany", "United States"] 0 "gbOpen" "out").2.2 (by decide)⟩

/-- Claim C2 counterexample: Nowhereland matches no country, so the fuzzy
lookup raises LookupError and the resolver returns None with an EMPTY log:
the absent result is not accompanied by any error message through the sink,
contrary to the claim that both failure cases are logged as errors. -/
theorem c2_counterexample :
    (get_iso_code_from_country_name testEnv "Nowhereland").fst = Option.none ∧
    (get_iso_code_from_country_name testEnv "Nowhereland").snd = [] := by
  exact ⟨rfl, rfl⟩

/-- Claim C2 amended: the resolver returns the first fuzzy match's alpha-3
code, or None, and never raises; a no-match failure (raised LookupError, or
an empty match list) yields None silently with no log, while only a
non-LookupError internal error yields None accompanied by an error message
through the shared sink. -/
theorem c2_resolver_first_match_or_silent_none (env : PycountryEnv) (name : String) :
    (∀ c cs, env.search_fuzzy name = SearchOutcome.found (c :: cs) →
        get_iso_code_from_country_name env name = (some c.alpha_3, [])) ∧
    (env.search_fuzzy name = SearchOutcome.found [] →
        get_iso_code_from_country_name env name = (Option.none, [])) ∧
    (env.search_fuzzy name = SearchOutcome.lookupError →
        get_iso_code_from_country_name env name = (Option.none, [])) ∧
    (∀ e, env.search_fuzzy name = SearchOutcome.otherError e →
        (get_iso_code_from_country_name env name).fst = Option.none ∧
        (get_iso_code_from_country_name env name).snd.all LogEvent.isError = true ∧
        (get_iso_code_from_country_name env name).snd ≠ []) := by
  refine ⟨?_, ?_, ?_, ?_⟩
  · intro c cs h
    simp [get_iso_code_from_country_name, h]
  · intro h
    simp [get_iso_code_from_country_name, h]
  · intro h
    simp [get_iso_code_from_country_name, h]
  · intro e h
    simp [get_iso_code_from_country_name, h, LogEvent.isError]

/-- Claim C2 witness: Canada fuzzy-matches its record and the resolver
returns its alpha-3 code CAN with no log output. -/
theorem c2_witness :
    testEnv.search_fuzzy "Canada" = SearchOutcome.found [canada] ∧
    get_iso_code_from_country_name testEnv "Canada" = (some canada.alpha_3, []) :=
  ⟨by decide,
   (c2_resolver_first_match_or_silent_none testEnv "Canada").1 canada [] (by decide)⟩

/-- Claim C3: the loader never propagates an exception: run under the
exception-transparent semantics, in which an uncaught raise from the
resolver or the file reader would surface as an Except.error of the whole
call, it returns Except.ok of exactly the pure loader's result for every
environment, filesystem and argument tuple. -/
theorem c3_no_exception_propagates {A : Type} (env : PycountryEnv)
    (fs : FileSystem A) (names : List String) (level : Int) (release base : String) :
    load_country_boundaries_to_dictE env fs names level release base
      = Except.ok (load_country_boundaries_to_dict env fs names level release base) := by
  unfold load_country_boundaries_to_dictE load_country_boundaries_to_dict
  dsimp only
  rw [foldlM_loadStepE]
  rfl

/-- Claim C4: every filesystem access of a loader run is an existence check
or a read at exactly the derived path base/ISO_ADMlevel_release.geojson of
some input name's resolved code, and the loader performs no write. -/
theorem c4_cache_path_read_only {A : Type} (env : PycountryEnv) (fs : FileSystem A)
    (names : List String) (level : Int) (release base : String) :
    (∀ a ∈ (load_country_boundaries_to_dict env fs names level release base).trace,
        ∃ n iso, n ∈ names ∧ resolvesTo env n = some iso ∧
          (a = FsAccess.existsCheck (cacheFilePathSpec base iso level release) ∨
           a = FsAccess.read (cacheFilePathSpec base iso level release))) ∧
    (∀ p, FsAccess.write p ∉
        (load_country_boundaries_to_dict env fs names level release base).trace) := by
  have hmain : ∀ a ∈ (load_country_boundaries_to_dict env fs names
      level release base).trace,
      ∃ n iso, n ∈ names ∧ resolvesTo env n = some iso ∧
        (a = FsAccess.existsCheck (cacheFilePathSpec base iso level release) ∨
         a = FsAccess.read (cacheFilePathSpec base iso level release)) := by
    intro a ha
    rw [load_trace] at ha
    rcases mem_tracesOf env fs level release base a names ha with ⟨n, hn, hstep⟩
    rcases mem_stepTrace env fs level release base n a hstep with ⟨iso, hiso, hcase⟩
    exact ⟨n, iso, hn, hiso, hcase⟩
  refine ⟨hmain, ?_⟩
  intro p hmem
  rcases hmain _ hmem with ⟨n, iso, _, _, h | h⟩ <;> exact FsAccess.noConfusion h

/-- Claim C4 witness: loading Canada checks exactly the derived cache path,
and that access is one of the two permitted kinds at the derived path. -/
theorem c4_witness :
    FsAccess.existsCheck "out/CAN_ADM0_gbOpen.geojson"
      ∈ (load_country_boundaries_to_dict testEnv testFs ["Canada"]
          0 "gbOpen" "out").trace ∧
    ∃ n iso, n ∈ ["Canada"] ∧ resolvesTo testEnv n = some iso ∧
      (FsAccess.existsCheck "out/CAN_ADM0_gbOpen.geojson"
          = FsAccess.existsCheck (cacheFilePathSpec "out" iso 0 "gbOpen") ∨
       FsAccess.existsCheck "out/CAN_ADM0_gbOpen.geojson"
          = FsAccess.read (cacheFilePathSpec "out" iso 0 "gbOpen")) :=
  ⟨by decide,
   (c4_cache_path_read_only testEnv testFs ["Canada"] 0 "gbOpen" "out").1 _ (by decide)⟩

/-- Claim C5: get_country_name_from_iso_code normalises its input by
trimming whitespace and upper-casing, then looks up the alpha-2 form first
and, only when that yields nothing, the alpha-3 form, returning the first
match's display name, or None when neither form resolves. -/
theorem c5_codeToName_normalise_then_alpha2_then_alpha3 (env : PycountryEnv)
    (s : String) :
    (∀ c, env.getAlpha2 (pyUpper (pyStrip s)) = Except.ok (some c) →
        get_country_name_from_iso_code env (PyVal.str s) = (some c.name, [])) ∧
    (∀ c, env.getAlpha2 (pyUpper (pyStrip s)) = Except.ok Option.none →
          env.getAlpha3 (pyUpper (pyStrip s)) = Except.ok (some c) →
        get_country_name_from_iso_code env (PyVal.str s) = (some c.name, [])) ∧
    (env.getAlpha2 (pyUpper (pyStrip s)) = Except.ok Option.none →
     env.getAlpha3 (pyUpper (pyStrip s)) = Except.ok Option.none →
        get_country_name_from_iso_code env (PyVal.str s) = (Option.none, [])) := by
  refine ⟨?_, ?_, ?_⟩
  · intro c h
    simp [get_country_name_from_iso_code, pyStr, h]
  · intro c h2 h3
    simp [get_country_name_from_iso_code, pyStr, h2, h3]
  · intro h2 h3
    simp [get_country_name_from_iso_code, pyStr, h2, h3]

/-- Claim C5 witness: the raw input with spaces and lower case resolves by
its normalised alpha-2 form US to the United States record. -/
theorem c5_witness :
    testEnv.getAlpha2 (pyUpper (pyStrip " us ")) = Except.ok (some usa) ∧
    get_country_name_from_iso_code testEnv (PyVal.str " us ") = (some usa.name, []) :=
  ⟨rfl,
   (c5_codeToName_normalise_then_alpha2_then_alpha3 testEnv " us ").1 usa rfl⟩

/-- Claim C6: when a lookup raises, get_country_name_from_iso_code catches
the exception and returns None, and its only diagnostic goes out as a
direct print, not through the shared sink. -/
theorem c6_codeToName_catches_and_prints (env : PycountryEnv) (v : PyVal)
    (e : String) :
    (env.getAlpha2 (pyUpper (pyStrip (pyStr v))) = Except.error e →
        (get_country_name_from_iso_code env v).fst = Option.none ∧
        (get_country_name_from_iso_code env v).snd.all LogEvent.isPrint = true ∧
        (get_country_name_from_iso_code env v).snd ≠ []) ∧
    (env.getAlpha2 (pyUpper (pyStrip (pyStr v))) = Except.ok Option.none →
     env.getAlpha3 (pyUpper (pyStrip (pyStr v))) = Except.error e →
        (get_country_name_from_iso_code env v).fst = Option.none ∧
        (get_country_name_from_iso_code env v).snd.all LogEvent.isPrint = true ∧
        (get_country_name_from_iso_code env v).snd ≠ []) := by
  constructor
  · intro h
    simp [get_country_name_from_iso_code, h, LogEvent.isPrint]
  · intro h2 h3
    simp [get_country_name_from_iso_code, h2, h3, LogEvent.isPrint]

/-- Claim C6 witness: against the raising database, looking up CA returns
None and emits exactly one direct print, no sink events. -/
theorem c6_witness :
    testEnvRaise.getAlpha2 (pyUpper (pyStrip (pyStr (PyVal.str "CA"))))
        = Except.error "database unavailable" ∧
    ((get_country_name_from_iso_code testEnvRaise (PyVal.str "CA")).fst
        = Option.none ∧
     (get_country_name_from_iso_code testEnvRaise
        (PyVal.str "CA")).snd.all LogEvent.isPrint = true ∧
     (get_country_name_from_iso_code testEnvRaise (PyVal.str "CA")).snd ≠ []) :=
  ⟨rfl,
   (c6_codeToName_catches_and_prints testEnvRaise (PyVal.str "CA")
      "database unavailable").1 rfl⟩

/-- Claim C7: the loader returns an empty catalog, without raising, on an
empty input list for any arguments, and likewise whenever every input name
fails to resolve to a code. -/
theorem c7_empty_catalog_cases {A : Type} (env : PycountryEnv) (fs : FileSystem A)
    (level : Int) (release base : String) (names : List String) :
    (load_country_boundaries_to_dict env fs ([] : List String)
        level release base).catalog = [] ∧
    ((∀ n ∈ names, resolvesTo env n = Option.none) →
      (load_country_boundaries_to_dict env fs names level release base).catalog
        = []) := by
  constructor
  · rw [load_catalog]
    rfl
  · intro h
    rw [load_catalog]
    exact foldl_stepCatalog_all_unresolved env fs level release base names [] h

/-- Claim C7 witness: Nowhereland resolves to no code and the loader
returns the empty catalog on it. -/
theorem c7_witness :
    (∀ n ∈ ["Nowhereland"], resolvesTo testEnv n = Option.none) ∧
    (load_country_boundaries_to_dict testEnv testFs ["Nowhereland"]
        0 "gbOpen" "out").catalog = [] :=
  ⟨by decide,
   (c7_empty_catalog_cases testEnv testFs 0 "gbOpen" "out" ["Nowhereland"]).2
     (by decide)⟩

/-- Claim C8: the loader is deterministic over an unchanged environment:
two calls with the same arguments against pointwise-equal resolver
databases and pointwise-equal filesystems return catalogs with identical
key lists and identical record contents. -/
theorem c8_idempotent_over_unchanged_env {A : Type} (env1 env2 : PycountryEnv)
    (fs1 fs2 : FileSystem A) (names : List String) (level : Int)
    (release base : String)
    (hsf : ∀ s, env1.search_fuzzy s = env2.search_fuzzy s)
    (hex : ∀ p, fs1.pathExists p = fs2.pathExists p)
    (hrd : ∀ p, fs1.read_file p = fs2.read_file p) :
    (load_country_boundaries_to_dict env1 fs1 names level release base).catalog
      = (load_country_boundaries_to_dict env2 fs2 names level release base).catalog ∧
    dictKeys (load_country_boundaries_to_dict env1 fs1 names
        level release base).catalog
      = dictKeys (load_country_boundaries_to_dict env2 fs2 names
          level release base).catalog := by
  have h : (load_country_boundaries_to_dict env1 fs1 names
      level release base).catalog
      = (load_country_boundaries_to_dict env2 fs2 names level release base).catalog := by
    rw [load_catalog, load_catalog]
    exact foldl_stepCatalog_congr env1 env2 fs1 fs2 hsf hex hrd level release base
      names []
  exact ⟨h, by rw [h]⟩

/-- Claim C8 witness: the two pointwise-equal copies of the fixture
database and filesystem produce the same catalog for Canada. -/
theorem c8_witness :
    (∀ s, testEnv.search_fuzzy s = testEnvB.search_fuzzy s) ∧
    (load_country_boundaries_to_dict testEnv testFs ["Canada"]
        0 "gbOpen" "out").catalog
      = (load_country_boundaries_to_dict testEnvB testFsB ["Canada"]
          0 "gbOpen" "out").catalog :=
  ⟨fun _ => rfl,
   (c8_idempotent_over_unchanged_env testEnv testEnvB testFs testFsB ["Canada"]
      0 "gbOpen" "out" (fun _ => rfl) (fun _ => rfl) (fun _ => rfl)).1⟩

/-- Claim C9: when a name occurs several times in the input and its gates
pass, the catalog holds exactly one entry for it, whose record is the one
the (unchanged, per-path deterministic) reader produces at the cache path
of its resolved code, which is the record of the read performed for the
last such occurrence; and the trace holds one read of that path per
occurrence whose code resolved and whose path existed: the file is re-read
each time. -/
theorem c9_duplicate_names_single_entry_reread {A : Type} (env : PycountryEnv)
    (fs : FileSystem A) (names : List String) (level : Int) (release base : String)
    (name iso : String) (v : A)
    (hmem : name ∈ names)
    (hiso : resolvesTo env name = some iso)
    (hex : fs.pathExists (cacheFilePathSpec base iso level release) = true)
    (hrd : fs.read_file (cacheFilePathSpec base iso level release) = Except.ok v) :
    (dictKeys (load_country_boundaries_to_dict env fs names
        level release base).catalog).count name = 1 ∧
    dictGet (load_country_boundaries_to_dict env fs names
        level release base).catalog name = some v ∧
    (load_country_boundaries_to_dict env fs names level release base).trace.count
        (FsAccess.read (cacheFilePathSpec base iso level release))
      = names.countP
          (attemptsRead env fs level release base
            (cacheFilePathSpec base iso level release)) := by
  have hget : dictGet (load_country_boundaries_to_dict env fs names
      level release base).catalog name = some v := by
    rw [load_catalog]
    exact foldl_stepCatalog_get env fs level release base name iso v hiso hex hrd
      names [] hmem
  refine ⟨?_, hget, ?_⟩
  · have hnodup : (dictKeys (load_country_boundaries_to_dict env fs names
        level release base).catalog).Nodup := by
      rw [load_catalog]
      exact foldl_stepCatalog_nodup env fs level release base names []
        List.nodup_nil
    have hmemk : name ∈ dictKeys (load_country_boundaries_to_dict env fs names
        level release base).catalog := by
      rw [← dictGet_isSome_iff, hget]
      rfl
    exact List.count_eq_one_of_mem hnodup hmemk
  · rw [load_trace]
    exact count_read_tracesOf env fs level release base
      (cacheFilePathSpec base iso level release) names

/-- Claim C9 witness: Canada listed twice yields one catalog entry holding
the read record, while the trace shows the cache file read twice. -/
theorem c9_witness :
    ("Canada" ∈ ["Canada", "Canada"] ∧
     resolvesTo testEnv "Canada" = some "CAN" ∧
     testFs.pathExists (cacheFilePathSpec "out" "CAN" 0 "gbOpen") = true ∧
     testFs.read_file (cacheFilePathSpec "out" "CAN" 0 "gbOpen") = Except.ok 7) ∧
    ((dictKeys (load_country_boundaries_to_dict testEnv testFs
        ["Canada", "Canada"] 0 "gbOpen" "out").catalog).count "Canada" = 1 ∧
     dictGet (load_country_boundaries_to_dict testEnv testFs
        ["Canada", "Canada"] 0 "gbOpen" "out").catalog "Canada" = some 7 ∧
     (load_country_boundaries_to_dict testEnv testFs ["Canada", "Canada"]
        0 "gbOpen" "out").trace.count
          (FsAccess.read (cacheFilePathSpec "out" "CAN" 0 "gbOpen"))
       = ["Canada", "Canada"].countP
           (attemptsRead testEnv testFs 0 "gbOpen" "out"
             (cacheFilePathSpec "out" "CAN" 0 "gbOpen"))) :=
  ⟨⟨by decide, by decide, by decide, rfl⟩,
   c9_duplicate_names_single_entry_reread testEnv testFs ["Canada", "Canada"]
     0 "gbOpen" "out" "Canada" "CAN" 7 (by decide) (by decide) (by decide) rfl⟩

/-- Claim C10: get_country_name_from_iso_code is total over the modelled
Python values, not just strings: it coerces its argument with str() before
stripping and upper-casing, so any value is accepted and is looked up
exactly as its string representation. -/
theorem c10_codeToName_total_via_str_coercion (env : PycountryEnv) (v : PyVal) :
    get_country_name_from_iso_code env v
      = get_country_name_from_iso_code env (PyVal.str (pyStr v)) := rfl
